import Mathlib

/-!
Verification development for the static blog generator
(`scripts/generate_blog.py`).  Python strings are modelled as Lean
`String`s; the string operations of the Python standard library that the
generator uses (`str.split`, `str.splitlines`, `str.strip`, `str.join`,
`str.lower`, `str.replace`, `re.sub` for the two fixed patterns,
`datetime.fromisoformat`, `datetime.strftime`) are given executable,
structurally recursive models below, and the generator's own functions
(`parse_post`, `load_posts`, `slugify_tag`, `build_preview_html`,
`build_prev_next_nav`, `build_rss`) are translated on top of them.
-/

set_option maxRecDepth 16384

namespace BlogGen

/-- Model of the check that `sep` is an initial segment of `l`
(list-of-chars variant, used by the splitter). -/
def leadsWith : List Char → List Char → Bool
  | [], _ => true
  | _ :: _, [] => false
  | a :: as, b :: bs => a == b && leadsWith as bs

/-- Model of the check that a string ends with the given suffix. -/
def endsWithStr (suf s : String) : Bool :=
  leadsWith suf.data.reverse s.data.reverse

/-- Fuel-driven worker for `pySplit`.  Scans `l` left to right; each time
`sep` occurs (non-overlapping, leftmost first) the accumulated chunk is
emitted, exactly like Python `str.split(sep)` for a non-empty `sep`. -/
def pySplitAux (sep : List Char) : Nat → List Char → List Char → List (List Char)
  | 0, acc, l => [acc.reverse ++ l]
  | fuel + 1, acc, l =>
    match l with
    | [] => [acc.reverse]
    | c :: rest =>
      if leadsWith sep (c :: rest) then
        acc.reverse :: pySplitAux sep fuel [] ((c :: rest).drop sep.length)
      else
        pySplitAux sep fuel (c :: acc) rest

/-- Model of Python `s.split(sep)` for a non-empty separator `sep`. -/
def pySplit (sep s : String) : List String :=
  if sep.data = [] then [s]
  else (pySplitAux sep.data (s.data.length + 1) [] s.data).map (fun l => (⟨l⟩ : String))

/-- Split a character list at every character satisfying `p`, keeping the
(possibly empty) chunks between the separators. -/
def splitPred (p : Char → Bool) : List Char → List (List Char)
  | [] => [[]]
  | c :: rest =>
    let r := splitPred p rest
    if p c then [] :: r
    else
      match r with
      | [] => [[c]]
      | h :: t => (c :: h) :: t

/-- Model of Python `s.splitlines()` with `\n` as the line separator: a
trailing newline does not produce a trailing empty line. -/
def pySplitlines (s : String) : List String :=
  let ls := (splitPred (fun c => c == '\n') s.data).map (fun l => (⟨l⟩ : String))
  if ls.getLast? = some "" then ls.dropLast else ls

/-- Model of Python `sep.join(xs)`. -/
def pyJoin (sep : String) : List String → String
  | [] => ""
  | [x] => x
  | x :: xs => x ++ sep ++ pyJoin sep xs

/-- Strip leading and trailing whitespace from a character list. -/
def trimChars (l : List Char) : List Char :=
  ((l.dropWhile Char.isWhitespace).reverse.dropWhile Char.isWhitespace).reverse

/-- Model of Python `s.strip()`. -/
def pyStrip (s : String) : String := ⟨trimChars s.data⟩

/-- Model of Python `s.lower()` (ASCII letters, as used by the slugs). -/
def pyLower (s : String) : String := ⟨s.data.map Char.toLower⟩

/-- Model of Python `s.replace(old, new)` for a non-empty `old`: replace
every non-overlapping occurrence, scanning left to right. -/
def pyReplace (s old new : String) : String := pyJoin new (pySplit old s)

/-- Split a character list at the first occurrence of `sep`, returning the
parts before and after it; `none` when `sep` does not occur.  This is
Python `s.split(sep, 1)` for a one-character separator (the `none` case
corresponds to the one-element result that makes two-name unpacking
raise). -/
def splitOnce (sep : Char) : List Char → Option (List Char × List Char)
  | [] => none
  | c :: rest =>
    if c == sep then some ([], rest)
    else (splitOnce sep rest).map (fun pq => (c :: pq.1, pq.2))

/-- Whether a character list contains a colon. -/
def hasColonL : List Char → Bool
  | [] => false
  | c :: rest => c == ':' || hasColonL rest

/-- Model of Python `s.split()` (no separator): split on whitespace runs,
dropping empty chunks. -/
def pyWords (s : String) : List String :=
  ((splitPred Char.isWhitespace s.data).filter (fun w => !w.isEmpty)).map
    (fun l => (⟨l⟩ : String))

/-- Fuel-driven worker for `stripTags`: removes every substring matching
the regex `<[^>]+>` (a `<`, at least one non-`>` character, then `>`),
exactly as `re.sub(r"<[^>]+>", "", body_html)` does. -/
def stripTagsAux : Nat → List Char → List Char
  | 0, l => l
  | _ + 1, [] => []
  | fuel + 1, c :: rest =>
    if c == '<' then
      match rest.dropWhile (fun x => x ≠ '>') with
      | _ :: after =>
        if (rest.takeWhile (fun x => x ≠ '>')).isEmpty then
          c :: stripTagsAux fuel rest
        else
          stripTagsAux fuel after
      | [] => c :: stripTagsAux fuel rest
    else
      c :: stripTagsAux fuel rest

/-- Model of `re.sub(r"<[^>]+>", "", s)`. -/
def stripTags (s : String) : String := ⟨stripTagsAux (s.data.length + 1) s.data⟩

/-- Fuel-driven worker for `re.sub(r"\s+", "-", s)`: each maximal run of
whitespace becomes a single hyphen. -/
def wsRunsToHyphenAux : Nat → List Char → List Char
  | 0, l => l
  | _ + 1, [] => []
  | fuel + 1, c :: rest =>
    if c.isWhitespace then
      '-' :: wsRunsToHyphenAux fuel (rest.dropWhile Char.isWhitespace)
    else
      c :: wsRunsToHyphenAux fuel rest

/-- Model of `re.sub(r"\s+", "-", s)`. -/
def wsRunsToHyphen (s : String) : String := ⟨wsRunsToHyphenAux (s.data.length + 1) s.data⟩

/-- Characters the slug keeps: the class `[a-z0-9-]`. -/
def isSlugChar (c : Char) : Bool :=
  ('a' ≤ c && c ≤ 'z') || ('0' ≤ c && c ≤ '9') || c == '-'

/-- Model of `re.sub(r"[^a-z0-9\-]", "", s)`. -/
def keepSlugChars (s : String) : String := ⟨s.data.filter isSlugChar⟩

/-! ## Dates -/

/-- The calendar timestamp stored on a post: the result of
`datetime.fromisoformat` on the `date` front-matter value. -/
structure ParsedDate where
  year : Nat
  month : Nat
  day : Nat
  hour : Nat
  minute : Nat
  second : Nat
deriving DecidableEq, Repr

/-- Numeric value of two decimal digit characters, `none` on non-digits. -/
def digits2 (a b : Char) : Option Nat :=
  if a.isDigit && b.isDigit then some ((a.toNat - 48) * 10 + (b.toNat - 48)) else none

/-- Numeric value of four decimal digit characters, `none` on non-digits. -/
def digits4 (a b c d : Char) : Option Nat :=
  match digits2 a b, digits2 c d with
  | some hi, some lo => some (hi * 100 + lo)
  | _, _ => none

/-- Gregorian leap-year test. -/
def isLeap (y : Nat) : Bool := (y % 4 == 0 && y % 100 != 0) || y % 400 == 0

/-- Number of days in a month of a given year. -/
def daysInMonth (y m : Nat) : Nat :=
  if m = 2 then (if isLeap y then 29 else 28)
  else if m = 4 ∨ m = 6 ∨ m = 9 ∨ m = 11 then 30
  else 31

/-- Parse the time-of-day tail `HH:MM` or `HH:MM:SS` of an ISO string. -/
def parseTimePart : List Char → Option (Nat × Nat × Nat)
  | [h1, h2, ':', m1, m2] =>
    match digits2 h1 h2, digits2 m1 m2 with
    | some h, some mi => if h < 24 && mi < 60 then some (h, mi, 0) else none
    | _, _ => none
  | [h1, h2, ':', m1, m2, ':', s1, s2] =>
    match digits2 h1 h2, digits2 m1 m2, digits2 s1 s2 with
    | some h, some mi, some se =>
      if h < 24 && mi < 60 && se < 60 then some (h, mi, se) else none
    | _, _, _ => none
  | _ => none

/-- Modelled from the spec: `datetime.fromisoformat` (the standard library
date parser, not part of this repository), restricted to the
`YYYY-MM-DD` and `YYYY-MM-DD*HH:MM[:SS]` shapes (any single separator
character, no fractional seconds, no timezone).  Component ranges are
validated as the `datetime` constructor does (year at least 1, month
1–12, day up to the month length, hour below 24, minute and second
below 60); any other input yields `none`, the model of `ValueError`. -/
def fromisoformat (s : String) : Option ParsedDate :=
  match s.data with
  | y1 :: y2 :: y3 :: y4 :: '-' :: m1 :: m2 :: '-' :: d1 :: d2 :: rest =>
    match digits4 y1 y2 y3 y4, digits2 m1 m2, digits2 d1 d2 with
    | some y, some mo, some d =>
      if 1 ≤ y ∧ 1 ≤ mo ∧ mo ≤ 12 ∧ 1 ≤ d ∧ d ≤ daysInMonth y mo then
        match rest with
        | [] => some ⟨y, mo, d, 0, 0, 0⟩
        | _ :: timeRest =>
          (parseTimePart timeRest).map (fun t => ⟨y, mo, d, t.1, t.2.1, t.2.2⟩)
      else none
    | _, _, _ => none
  | _ => none

/-- Lexicographic sort key of a timestamp: Python compares `datetime`
values componentwise, which (with the components in their validated
ranges) coincides with the order of this mixed-radix number. -/
def ParsedDate.key (d : ParsedDate) : Nat :=
  ((((d.year * 13 + d.month) * 32 + d.day) * 24 + d.hour) * 60 + d.minute) * 60 + d.second

/-- Abbreviated day names, indexed by Sakamoto weekday (0 = Sunday),
as produced by `strftime("%a")`. -/
def dayNames : List String := ["Sun", "Mon", "Tue", "Wed", "Thu", "Fri", "Sat"]

/-- Abbreviated month names, as produced by `strftime("%b")`. -/
def monthNames : List String :=
  ["Jan", "Feb", "Mar", "Apr", "May", "Jun", "Jul", "Aug", "Sep", "Oct", "Nov", "Dec"]

/-- Month offsets of Sakamoto's day-of-week algorithm. -/
def sakamotoT : List Nat := [0, 3, 2, 5, 0, 3, 5, 1, 4, 6, 2, 4]

/-- Day of the week (0 = Sunday) by Sakamoto's algorithm; models the
weekday that `strftime("%a")` renders. -/
def weekdayOf (y m d : Nat) : Nat :=
  let y2 := if m < 3 then y - 1 else y
  (y2 + y2 / 4 - y2 / 100 + y2 / 400 + sakamotoT.getD (m - 1) 0 + d) % 7

/-- Two-digit zero-padded decimal rendering. -/
def pad2 (n : Nat) : String := if n < 10 then "0" ++ toString n else toString n

/-- Four-digit zero-padded decimal rendering. -/
def pad4 (n : Nat) : String :=
  if n < 10 then "000" ++ toString n
  else if n < 100 then "00" ++ toString n
  else if n < 1000 then "0" ++ toString n
  else toString n

/-- Modelled from the spec: `strftime("%a, %d %b %Y %H:%M:%S +0000")`,
the RFC-2822-style date format used for `pubDate` and `lastBuildDate`. -/
def formatRfc822 (d : ParsedDate) : String :=
  (dayNames.getD (weekdayOf d.year d.month d.day) "") ++ ", " ++ pad2 d.day ++ " " ++
    (monthNames.getD (d.month - 1) "") ++ " " ++ pad4 d.year ++ " " ++
    pad2 d.hour ++ ":" ++ pad2 d.minute ++ ":" ++ pad2 d.second ++ " +0000"

/-! ## The Post record and the front-matter parser -/

/-- The post record returned by `parse_post`. -/
structure Post where
  title : String
  date : ParsedDate
  date_str : String
  slug : String
  tags : List String
  body_html : String
deriving DecidableEq, Repr

/-- Python truthiness of an optional string (`not x` for `x` either
absent or the empty string). -/
def falsy : Option String → Bool
  | none => true
  | some s => s == ""

/-- One metadata line: `key, value = line.split(":", 1)` followed by
`key.strip()` and `value.strip()`; `none` models the `ValueError` raised
by unpacking when the line has no `:`. -/
def splitKV (line : String) : Option (String × String) :=
  match splitOnce ':' line.data with
  | none => none
  | some kv => some (pyStrip ⟨kv.1⟩, pyStrip ⟨kv.2⟩)

/-- The metadata loop of `parse_post`: blank lines are skipped, a
non-blank line without `:` raises, and each remaining line contributes
its trimmed key/value pair (in file order; lookups take the last
binding, like assignment into a Python dict). -/
def parseMeta : List String → Except String (List (String × String))
  | [] => .ok []
  | line :: rest =>
    if pyStrip line = "" then parseMeta rest
    else
      match splitKV line with
      | none => .error "ValueError: not enough values to unpack"
      | some kv => (parseMeta rest).map (fun m => kv :: m)

/-- The pairs contributed by the well-formed metadata lines only
(blank lines and lines without `:` contribute nothing). -/
def lenientMeta (lines : List String) : List (String × String) :=
  lines.filterMap (fun l => if pyStrip l = "" then none else splitKV l)

/-- Dictionary lookup: the value of the last binding of `k`, `none` when
`k` was never bound (Python `meta.get(k)`). -/
def metaGet (m : List (String × String)) (k : String) : Option String :=
  (m.reverse.find? (fun kv => kv.1 == k)).map (fun kv => kv.2)

/-- A metadata line that makes the parser raise: non-blank and without a
`:` separator. -/
def badLine (l : String) : Bool := !(pyStrip l == "") && !hasColonL l.data

/-- The metadata lines of a post text: segment 2 of the split on `---`,
trimmed, split into lines. -/
def metaLines (text : String) : List String :=
  let parts := pySplit "---" text
  pySplitlines (pyStrip (parts.getD 1 ""))

/-- The stem of `os.path.splitext`: everything before the last dot,
unless the characters before that dot are all dots (leading dots do not
start an extension). -/
def splitextStem (cs : List Char) : List Char :=
  let r := cs.reverse
  let ext := r.takeWhile (fun c => c ≠ '.')
  if ext.length = cs.length then cs
  else
    let stem := (r.drop (ext.length + 1)).reverse
    if stem.any (fun c => c ≠ '.') then stem else cs

/-- `os.path.splitext(os.path.basename(path))[0]`: the filename without
its directory and extension, used as the derived slug. -/
def stemOfPath (path : String) : String :=
  let base := ((pySplit "/" path).getLast?).getD path
  ⟨splitextStem base.data⟩

/-- `parse_post`, translated from `scripts/generate_blog.py` lines 22–68:
split on `---` (fewer than 3 segments raises), parse the metadata block
line by line, require truthy `title` and `date`, derive the slug from the
filename when absent, split the optional comma-separated tags, and parse
the date with `fromisoformat`.  `Except.error` models the raised
`ValueError`s. -/
def parse_post (path text : String) : Except String Post :=
  let parts := pySplit "---" text
  if parts.length < 3 then
    .error ("Post " ++ path ++ " missing front matter delimiters ---")
  else
    let meta_block := pyStrip (parts.getD 1 "")
    let body_html := pyStrip (pyJoin "---" (parts.drop 2))
    match parseMeta (pySplitlines meta_block) with
    | .error e => .error e
    | .ok meta =>
      let title := metaGet meta "title"
      let date_str := metaGet meta "date"
      let slug0 := metaGet meta "slug"
      if falsy title || falsy date_str then
        .error ("Post " ++ path ++ " missing title or date")
      else
        let slug := if falsy slug0 then stemOfPath path else slug0.getD ""
        let tags_raw := (metaGet meta "tags").getD ""
        let tags := ((pySplit "," tags_raw).map pyStrip).filter (fun t => !(t == ""))
        match fromisoformat (date_str.getD "") with
        | none => .error ("Invalid isoformat string " ++ date_str.getD "")
        | some date =>
          .ok { title := title.getD "", date := date, date_str := date_str.getD "",
                slug := slug, tags := tags, body_html := body_html }

/-- Whether a parse result is a raised error. -/
def parseFails (r : Except String Post) : Bool :=
  match r with
  | .error _ => true
  | .ok _ => false

/-! ## The post repository -/

/-- Insert `a` in front of the first element `b` with `r a b`; the worker
of the stable sort. -/
def insertStable (r : α → α → Bool) (a : α) : List α → List α
  | [] => [a]
  | b :: bs => if r a b then a :: b :: bs else b :: insertStable r a bs

/-- Stable sort: an element is placed before the first element it may
precede, so elements the order does not separate keep their original
relative order.  Models Python's stable `list.sort` / `sorted`. -/
def sortStable (r : α → α → Bool) : List α → List α
  | [] => []
  | a :: as => insertStable r a (sortStable r as)

/-- Lexicographic order on character lists by code point: the order
Python compares strings with. -/
def strLeL : List Char → List Char → Bool
  | [], _ => true
  | _ :: _, [] => false
  | a :: as, b :: bs =>
    if a.toNat = b.toNat then strLeL as bs else decide (a.toNat < b.toNat)

/-- The precedence test of `sorted(files)`: ascending filename order. -/
def fileBefore (a b : String × String) : Bool := strLeL a.1.data b.1.data

/-- The precedence test of `posts.sort(key=..., reverse=True)`: dates
descending; on equal dates the earlier element stays first. -/
def dateDescBefore (a b : Post) : Bool := decide (b.date.key ≤ a.date.key)

/-- `load_posts`, translated from `scripts/generate_blog.py` lines 70–75.
The directory listing is modelled as `(filename, contents)` pairs; the
glob keeps the `.html` files and `sorted` puts them in filename order,
each is parsed (a failure aborts the whole load), and the parsed posts
are stable-sorted newest first. -/
def load_posts (files : List (String × String)) : Except String (List Post) :=
  let globbed := sortStable fileBefore (files.filter (fun fp => endsWithStr ".html" fp.1))
  match globbed.mapM (fun fp => parse_post fp.1 fp.2) with
  | .error e => .error e
  | .ok posts => .ok (sortStable dateDescBefore posts)

/-- The parsed posts in sorted-filename order, before the date sort. -/
def parsedInFileOrder (files : List (String × String)) : Except String (List Post) :=
  (sortStable fileBefore (files.filter (fun fp => endsWithStr ".html" fp.1))).mapM
    (fun fp => parse_post fp.1 fp.2)

/-! ## Slugs, previews, navigation, RSS -/

/-- `slugify_tag`, translated from lines 78–83: lowercase, strip, replace
whitespace runs with `-`, drop everything outside `[a-z0-9-]`. -/
def slugify_tag (tag : String) : String :=
  keepSlugChars (wsRunsToHyphen (pyStrip (pyLower tag)))

/-- The pipeline the claim describes for `slugify_tag`, word for word:
lowercase, replace whitespace runs with a hyphen, strip every character
outside `[a-z0-9-]` — with no initial trim. -/
def slugifyClaimed (tag : String) : String :=
  keepSlugChars (wsRunsToHyphen (pyLower tag))

/-- The claim as amended: the source additionally strips surrounding
whitespace before replacing whitespace runs. -/
def slugifyAmended (tag : String) : String :=
  keepSlugChars (wsRunsToHyphen (pyStrip (pyLower tag)))

/-- `build_preview_html`, translated from lines 169–187: strip tags,
split into words; at or under the limit the original HTML is returned,
over it the first `max_words` words are joined and wrapped in `<p>`
with a literal `...`. -/
def build_preview_html (body_html : String) (max_words : Nat) : String :=
  let text := stripTags body_html
  let words := pyWords text
  if words.length ≤ max_words then body_html
  else
    let preview_words := words.take max_words
    let preview_text := pyJoin " " preview_words ++ "..."
    "<p>" ++ preview_text ++ "</p>"

/-- The `Previous Post` link of the prev/next navigation (line 351). -/
def prevLinkHtml (older : Post) : String :=
  "<a href=\"/blog/" ++ older.slug ++ ".html\">&laquo; Previous Post: " ++ older.title ++ "</a>"

/-- The `Next Post` link of the prev/next navigation (line 355). -/
def nextLinkHtml (newer : Post) : String :=
  "<a href=\"/blog/" ++ newer.slug ++ ".html\">Next Post: " ++ newer.title ++ " &raquo;</a>"

/-- `build_prev_next_nav`, translated from lines 335–364: on the
newest-first list, the post at `index + 1` (when the index is not last)
is the older neighbour and the post at `index - 1` (when the index is
positive) is the newer one; present links are joined with the visible
separator, absent ones are omitted. -/
def build_prev_next_nav (posts : List Post) (index : Nat) : String :=
  let newer := if index > 0 then posts[index - 1]? else none
  let older := if index < posts.length - 1 then posts[index + 1]? else none
  let prev_html := match older with | some o => prevLinkHtml o | none => ""
  let next_html := match newer with | some n => nextLinkHtml n | none => ""
  if prev_html != "" && next_html != "" then
    prev_html ++ " &nbsp;|&nbsp; " ++ next_html
  else if prev_html != "" then prev_html
  else if next_html != "" then next_html
  else ""

/-- The navigation the claim describes: a Previous link exactly when
`index + 1` is a position of the list, a Next link exactly when the
index is at least 1, joined with the separator when both exist, the
empty string when neither does. -/
def navClaimed (posts : List Post) (index : Nat) : String :=
  match (if index + 1 < posts.length then posts[index + 1]? else none),
      (if 1 ≤ index then posts[index - 1]? else none) with
  | some o, some n => prevLinkHtml o ++ " &nbsp;|&nbsp; " ++ nextLinkHtml n
  | some o, none => prevLinkHtml o
  | none, some n => nextLinkHtml n
  | none, none => ""

/-- The site base URL (line 12). -/
def SITE_BASE_URL : String := "https://cloudtopher.com"

/-- The absolute permalink used for an RSS item's link and GUID. -/
def absLink (post : Post) : String :=
  SITE_BASE_URL ++ "/blog/" ++ post.slug ++ ".html"

/-- One RSS `<item>`, translated from lines 374–388: title, absolute
link, GUID equal to the link, RFC-2822-style date, and the body HTML
with newlines replaced by spaces inside a CDATA section. -/
def rssItem (post : Post) : String :=
  let pub_date := formatRfc822 post.date
  let link := SITE_BASE_URL ++ "/blog/" ++ post.slug ++ ".html"
  let description := pyReplace post.body_html "\n" " "
  "\n        <item>\n          <title>" ++ post.title ++ "</title>\n          <link>" ++
    link ++ "</link>\n          <guid>" ++ link ++ "</guid>\n          <pubDate>" ++
    pub_date ++ "</pubDate>\n          <description><![CDATA[" ++ description ++
    "]]></description>\n        </item>\n        "

/-- An RSS `<item>` with the five payload fields held abstract; used to
state what `rssItem` carries in each slot. -/
def rssItemWith (title link guid pubDate desc : String) : String :=
  "\n        <item>\n          <title>" ++ title ++ "</title>\n          <link>" ++
    link ++ "</link>\n          <guid>" ++ guid ++ "</guid>\n          <pubDate>" ++
    pubDate ++ "</pubDate>\n          <description><![CDATA[" ++ desc ++
    "]]></description>\n        </item>\n        "

/-- The feed document with the `lastBuildDate` value and the item block
held abstract; used to state what `build_rss` produces. -/
def rssDocWith (lastBuild : String) (items : List String) : String :=
  "<?xml version=\"1.0\" encoding=\"UTF-8\"?>\n    <rss version=\"2.0\">\n      <channel>\n        <title>Cloud Resume Dev Log</title>\n        <link>" ++
    SITE_BASE_URL ++
    "/blog.html</link>\n        <description>Updates and notes from building my AWS Cloud Resume.</description>\n        <lastBuildDate>" ++
    lastBuild ++ "</lastBuildDate>\n        " ++ pyJoin "" items ++
    "\n      </channel>\n    </rss>\n    "

/-- `build_rss`, translated from lines 367–405: with no posts nothing is
produced (no feed file is written); otherwise `lastBuildDate` is the
formatted date of the first (newest) post, every post contributes one
item, and the stripped document is the feed file's contents. -/
def build_rss (posts : List Post) : Option String :=
  match posts with
  | [] => none
  | p0 :: _ =>
    let last_build := formatRfc822 p0.date
    let items_xml := posts.map rssItem
    let rss := "<?xml version=\"1.0\" encoding=\"UTF-8\"?>\n    <rss version=\"2.0\">\n      <channel>\n        <title>Cloud Resume Dev Log</title>\n        <link>" ++
      SITE_BASE_URL ++
      "/blog.html</link>\n        <description>Updates and notes from building my AWS Cloud Resume.</description>\n        <lastBuildDate>" ++
      last_build ++ "</lastBuildDate>\n        " ++ pyJoin "" items_xml ++
      "\n      </channel>\n    </rss>\n    "
    some (pyStrip rss)

/-! ## Claim-side conditions -/

/-- The failure condition claim C2 states for `parse_post`: fewer than 3
segments, or a missing/empty `title` value, or a missing/empty `date`
value, or an unparseable date — with no other cause of failure (metadata
lines without `:` are read leniently here, as the claim admits no
failure for them). -/
def c2FailCond (text : String) : Bool :=
  let parts := pySplit "---" text
  decide (parts.length < 3) ||
    (let m := lenientMeta (metaLines text)
     falsy (metaGet m "title") || falsy (metaGet m "date") ||
       (fromisoformat ((metaGet m "date").getD "")).isNone)

/-- The failure condition of the amended claim: additionally, a non-blank
metadata line without a `:` separator makes the parse fail. -/
def amendedFailCond (text : String) : Bool :=
  let parts := pySplit "---" text
  decide (parts.length < 3) || (metaLines text).any badLine ||
    (let m := lenientMeta (metaLines text)
     falsy (metaGet m "title") || falsy (metaGet m "date") ||
       (fromisoformat ((metaGet m "date").getD "")).isNone)

/-! ## Concrete fixtures for witnesses and counterexamples -/

/-- Newest post of the three-post navigation fixture. -/
def fixP0 : Post :=
  { title := "P0", date := ⟨2024, 3, 10, 0, 0, 0⟩, date_str := "2024-03-10",
    slug := "p0", tags := [], body_html := "b0" }

/-- Middle post of the three-post navigation fixture. -/
def fixP1 : Post :=
  { title := "P1", date := ⟨2024, 2, 5, 0, 0, 0⟩, date_str := "2024-02-05",
    slug := "p1", tags := [], body_html := "b1" }

/-- Oldest post of the three-post navigation fixture. -/
def fixP2 : Post :=
  { title := "P2", date := ⟨2024, 1, 1, 0, 0, 0⟩, date_str := "2024-01-01",
    slug := "p2", tags := [], body_html := "b2" }

/-- The three-post newest-first list (P0, P1, P2) of claims C5 and C6. -/
def posts3 : List Post := [fixP0, fixP1, fixP2]

/-- A post whose body contains a newline, for the RSS description claim. -/
def nlPost : Post :=
  { title := "N", date := ⟨2024, 3, 10, 0, 0, 0⟩, date_str := "2024-03-10",
    slug := "n", tags := [], body_html := "line1\nline2" }

/-- A post text whose metadata block has a junk line without `:` but a
valid title and date: the parser raises on it although none of the
failure causes listed by claim C2 holds. -/
def c2Text : String := "---\ntitle: A\ndate: 2024-03-10\njunk\n---\nbody"

/-- A post text with a non-blank, colon-free metadata line. -/
def c9Text : String := "---\ntitle: T\nnocolon\n---\nbody"

/-- A post text whose `title` key is present but has an empty value. -/
def c10Text : String := "---\ntitle:\ndate: 2024-03-10\n---\nbody"

/-- A well-formed post text for the parser witness. -/
def wText : String := "---\ntitle: A\ndate: 2024-03-10\n---\nbodyA"

/-- The post `parse_post` produces from `wText`. -/
def wPost : Post :=
  { title := "A", date := ⟨2024, 3, 10, 0, 0, 0⟩, date_str := "2024-03-10",
    slug := "a", tags := [], body_html := "bodyA" }

/-- A second well-formed post text, same date, different filename. -/
def wTextB : String := "---\ntitle: B\ndate: 2024-03-10\n---\nbodyB"

/-- The post `parse_post` produces from `wTextB`. -/
def wPostB : Post :=
  { title := "B", date := ⟨2024, 3, 10, 0, 0, 0⟩, date_str := "2024-03-10",
    slug := "b", tags := [], body_html := "bodyB" }

/-- A directory listing for the repository witness: two equal-date posts
given out of filename order, plus a non-`.html` file the glob ignores. -/
def filesW : List (String × String) :=
  [("posts/b.html", wTextB), ("posts/a.html", wText), ("posts/readme.txt", "not a post")]

/-- The parse of `filesW` in sorted-filename order. -/
def parsedW : List Post := [wPost, wPostB]

/-- A body whose stripped text has three words, for the preview witness. -/
def previewBody : String := "<b>one two</b> three"

/-! ## Helper lemmas -/

/-- A rendered Previous link is never the empty string (its HTML starts
with `<a`), so Python's truthiness test on it means "an older post
exists". -/
theorem prevLinkHtml_ne_empty (o : Post) : (prevLinkHtml o == "") = false := by
  rw [beq_eq_false_iff_ne]
  intro h
  have h2 : (prevLinkHtml o).data = [] := congrArg String.data h
  simp [prevLinkHtml] at h2

/-- A rendered Next link is never the empty string. -/
theorem nextLinkHtml_ne_empty (n : Post) : (nextLinkHtml n == "") = false := by
  rw [beq_eq_false_iff_ne]
  intro h
  have h2 : (nextLinkHtml n).data = [] := congrArg String.data h
  simp [nextLinkHtml] at h2

/-! ## C3: the preview builder -/

/-- C3: for every body HTML and word limit, if the tag-stripped text has
at most `limit` words the preview is the original HTML unchanged, and
otherwise it is exactly one `<p>` element holding the first `limit`
stripped words joined by single spaces followed by `...`, with none of
the original markup. -/
theorem preview_under_keeps_over_truncates (body : String) (limit : Nat) :
    ((pyWords (stripTags body)).length ≤ limit →
      build_preview_html body limit = body) ∧
    (limit < (pyWords (stripTags body)).length →
      build_preview_html body limit =
        "<p>" ++ (pyJoin " " ((pyWords (stripTags body)).take limit) ++ "...") ++ "</p>") := by
  constructor
  · intro h
    simp only [build_preview_html]
    rw [if_pos h]
  · intro h
    simp only [build_preview_html]
    rw [if_neg (by omega)]

/-- Witness for C3: a concrete body whose stripped text has three words
is returned unchanged at limit 3 and truncated to `<p>one two...</p>`
at limit 2. -/
theorem preview_witness :
    ((pyWords (stripTags previewBody)).length ≤ 3 ∧
      build_preview_html previewBody 3 = previewBody) ∧
    (2 < (pyWords (stripTags previewBody)).length ∧
      build_preview_html previewBody 2 = "<p>one two...</p>") :=
  ⟨⟨by decide, (preview_under_keeps_over_truncates previewBody 3).1 (by decide)⟩,
    ⟨by decide, ((preview_under_keeps_over_truncates previewBody 2).2 (by decide)).trans
      (by decide)⟩⟩

/-! ## C8: the tag slug -/

/-- C8 counterexample: the claimed pipeline (lowercase, whitespace runs
to hyphen, strip the rest) disagrees with `slugify_tag` on a tag with
surrounding whitespace, because the source strips the tag first. -/
theorem slugify_counterexample : slugify_tag " a " ≠ slugifyClaimed " a " := by decide

/-- C8 as amended: `slugify_tag` lowercases, strips surrounding
whitespace, replaces whitespace runs with a hyphen and drops every
character outside `[a-z0-9-]`; in particular `slugify_tag "C++ Tips!" =
"c-tips"`, and every output character is in `[a-z0-9-]`. -/
theorem slugify_amended_spec :
    (∀ t, slugify_tag t = slugifyAmended t) ∧
    slugify_tag "C++ Tips!" = "c-tips" ∧
    ∀ t, (slugify_tag t).data.all isSlugChar = true := by
  refine ⟨fun t => rfl, by decide, fun t => ?all⟩
  rw [List.all_eq_true]
  intro x hx
  exact (List.mem_filter.mp hx).2

/-! ## C4: the RSS item -/

/-- C4 counterexample: for a post whose body contains a newline, the
generated item's CDATA payload is not the stored body verbatim — the
source replaces newlines with spaces first. -/
theorem rss_item_counterexample :
    rssItem nlPost ≠
      rssItemWith nlPost.title (absLink nlPost) (absLink nlPost)
        (formatRfc822 nlPost.date) nlPost.body_html := by decide

/-- C4 as amended: every RSS item carries the post title, the absolute
permalink, a GUID equal to that link, the RFC-2822-style date, and a
CDATA description holding the body HTML with each newline replaced by a
space. -/
theorem rss_item_fields (post : Post) :
    rssItem post =
      rssItemWith post.title (absLink post) (absLink post)
        (formatRfc822 post.date) (pyReplace post.body_html "\n" " ") ∧
    absLink post = SITE_BASE_URL ++ "/blog/" ++ post.slug ++ ".html" :=
  ⟨rfl, rfl⟩

/-! ## Metadata-parsing lemmas -/

/-- `splitOnce` finds no colon exactly when the line has none. -/
theorem splitOnce_none_iff (cs : List Char) :
    splitOnce ':' cs = none ↔ hasColonL cs = false := by
  induction cs with
  | nil => simp [splitOnce, hasColonL]
  | cons c rest ih =>
    simp only [splitOnce, hasColonL]
    by_cases hc : c == ':'
    · simp [hc]
    · simp [hc, Option.map_eq_none', ih]

/-- A metadata line fails to split exactly when it has no colon. -/
theorem splitKV_none_iff (line : String) :
    splitKV line = none ↔ hasColonL line.data = false := by
  rw [← splitOnce_none_iff]
  simp only [splitKV]
  cases hs : splitOnce ':' line.data with
  | none => simp
  | some kv => simp

/-- Splitting at the first colon of `pre ++ ':' :: post` (no colon in
`pre`) returns exactly `pre` and `post`. -/
theorem splitOnce_append (pre post : List Char) (h : hasColonL pre = false) :
    splitOnce ':' (pre ++ ':' :: post) = some (pre, post) := by
  induction pre with
  | nil => simp [splitOnce]
  | cons c cs ih =>
    simp only [hasColonL, Bool.or_eq_false_iff] at h
    simp [splitOnce, h.1, ih h.2]

/-- The metadata loop either succeeds with exactly the pairs of the
well-formed lines (when no non-blank line lacks a colon) or raises
(when one does). -/
theorem parseMeta_spec (lines : List String) :
    (parseMeta lines = .ok (lenientMeta lines) ∧ lines.any badLine = false) ∨
    ((∃ e, parseMeta lines = .error e) ∧ lines.any badLine = true) := by
  induction lines with
  | nil => exact .inl ⟨rfl, rfl⟩
  | cons line rest ih =>
    by_cases hb : pyStrip line = ""
    · have hbad : badLine line = false := by simp [badLine, hb]
      rcases ih with ⟨hok, hany⟩ | ⟨⟨e, herr⟩, hany⟩
      · exact .inl ⟨by simp [parseMeta, hb, hok, lenientMeta], by simp [hbad, hany]⟩
      · exact .inr ⟨⟨e, by simp [parseMeta, hb, herr]⟩, by simp [hbad, hany]⟩
    · cases hkv : splitKV line with
      | none =>
        have hcol : hasColonL line.data = false := (splitKV_none_iff line).mp hkv
        have hbad : badLine line = true := by simp [badLine, hb, hcol]
        exact .inr ⟨⟨"ValueError: not enough values to unpack",
          by simp [parseMeta, hb, hkv]⟩, by simp [hbad]⟩
      | some kv =>
        have hcol : hasColonL line.data = true := by
          by_contra hc
          have h2 : splitKV line = none :=
            (splitKV_none_iff line).mpr (by simpa using hc)
          simp [hkv] at h2
        have hbad : badLine line = false := by simp [badLine, hcol]
        rcases ih with ⟨hok, hany⟩ | ⟨⟨e, herr⟩, hany⟩
        · refine .inl ⟨?eq, by simp [hbad, hany]⟩
          simp [parseMeta, hb, hkv, hok, lenientMeta, Except.map]
        · exact .inr ⟨⟨e, by simp [parseMeta, hb, hkv, herr, Except.map]⟩,
            by simp [hbad, hany]⟩

/-- When the parse succeeds, the post's title and date string are exactly
the looked-up metadata values and the stored date is their parse. -/
lemma parse_post_ok_fields (path text : String) (m : List (String × String)) (post : Post)
    (h3 : ¬ (pySplit "---" text).length < 3)
    (hm : parseMeta (pySplitlines (pyStrip ((pySplit "---" text).getD 1 ""))) = .ok m)
    (hpost : parse_post path text = .ok post) :
    metaGet m "title" = some post.title ∧ metaGet m "date" = some post.date_str ∧
      fromisoformat post.date_str = some post.date := by
  simp only [parse_post] at hpost
  rw [if_neg h3, hm] at hpost
  dsimp only at hpost
  cases hft : falsy (metaGet m "title") with
  | true => rw [hft] at hpost; simp at hpost
  | false =>
    cases hfd : falsy (metaGet m "date") with
    | true => rw [hft, hfd] at hpost; simp at hpost
    | false =>
      rw [hft, hfd] at hpost
      simp only [Bool.or_self] at hpost
      cases hiso : fromisoformat ((metaGet m "date").getD "") with
      | none => rw [hiso] at hpost; simp at hpost
      | some dt =>
        rw [hiso] at hpost
        simp only [reduceIte] at hpost
        injection hpost with h2
        subst h2
        refine ⟨?t, ?d, ?f⟩
        · cases hmt : metaGet m "title" with
          | none => rw [hmt] at hft; simp [falsy] at hft
          | some s => simp [hmt]
        · cases hmd : metaGet m "date" with
          | none => rw [hmd] at hfd; simp [falsy] at hfd
          | some ds => simp [hmd]
        · exact hiso

/-! ## C2: when the parser fails -/

/-- C2 counterexample: on a text whose metadata block holds a junk line
without `:` (but a valid title and date), the parser raises although the
claim's listed failure causes all fail to hold — the claimed "exactly
when" is false. -/
theorem parse_fail_cause_counterexample :
    parseFails (parse_post "posts/a.html" c2Text) = true ∧ c2FailCond c2Text = false := by
  decide

/-- C2 as amended: `parse_post` fails exactly when the split on `---`
yields fewer than 3 segments, or some non-blank metadata line has no
`:`, or the `title` value is missing/empty, or the `date` value is
missing/empty, or the date does not parse as ISO-8601; otherwise the
produced post carries exactly the metadata's title and date. -/
theorem parse_fails_iff_amended (path text : String) :
    parseFails (parse_post path text) = amendedFailCond text ∧
    ∀ post, parse_post path text = .ok post →
      metaGet (lenientMeta (metaLines text)) "title" = some post.title ∧
      metaGet (lenientMeta (metaLines text)) "date" = some post.date_str ∧
      fromisoformat post.date_str = some post.date := by
  by_cases h3 : (pySplit "---" text).length < 3
  · constructor
    · simp [parse_post, amendedFailCond, h3, parseFails]
    · intro post hpost
      simp [parse_post, h3] at hpost
  · have hd : decide ((pySplit "---" text).length < 3) = false := by simp [h3]
    rcases parseMeta_spec (metaLines text) with ⟨hok, hany⟩ | ⟨⟨e, herr⟩, hany⟩
    · have hok2 := hok
      have hany2 := hany
      simp only [metaLines] at hok2 hany2
      constructor
      · simp only [parse_post, amendedFailCond, metaLines]
        rw [if_neg h3, hok2, hd, hany2]
        simp only [Bool.false_or]
        cases hft : falsy (metaGet (lenientMeta (pySplitlines (pyStrip ((pySplit "---" text).getD 1 "")))) "title") with
        | true => simp [hft, parseFails]
        | false =>
          cases hfd : falsy (metaGet (lenientMeta (pySplitlines (pyStrip ((pySplit "---" text).getD 1 "")))) "date") with
          | true => simp [hft, hfd, parseFails]
          | false =>
            cases hiso : fromisoformat ((metaGet (lenientMeta (pySplitlines (pyStrip ((pySplit "---" text).getD 1 "")))) "date").getD "") with
            | none => simp [hft, hfd, hiso, parseFails]
            | some dt => simp [hft, hfd, hiso, parseFails]
      · intro post hpost
        have h2 := parse_post_ok_fields path text
          (lenientMeta (pySplitlines (pyStrip ((pySplit "---" text).getD 1 "")))) post h3 hok2 hpost
        simpa only [metaLines] using h2
    · have herr2 := herr
      have hany2 := hany
      simp only [metaLines] at herr2 hany2
      constructor
      · simp only [parse_post, amendedFailCond, metaLines]
        rw [if_neg h3, herr2, hd, hany2]
        simp [parseFails]
      · intro post hpost
        simp only [parse_post] at hpost
        rw [if_neg h3, herr2] at hpost
        simp at hpost

/-- Witness for C2: the amended theorem applied to a concrete well-formed
post text, whose parse succeeds with exactly the metadata's title and
date. -/
theorem parse_fails_iff_amended_witness :
    parse_post "posts/a.html" wText = .ok wPost ∧
    (metaGet (lenientMeta (metaLines wText)) "title" = some wPost.title ∧
     metaGet (lenientMeta (metaLines wText)) "date" = some wPost.date_str ∧
     fromisoformat wPost.date_str = some wPost.date) :=
  ⟨rfl, (parse_fails_iff_amended "posts/a.html" wText).2 wPost rfl⟩

/-! ## C9: metadata line shape -/

/-- C9: a non-blank metadata line without `:` makes the whole parse
raise, and a line of the shape `pre ++ ":" ++ post` (first colon shown)
contributes the trimmed `pre` as key and the trimmed `post` as value. -/
theorem meta_line_rules (path text : String)
    (h3 : ¬ (pySplit "---" text).length < 3)
    (hbad : (metaLines text).any badLine = true) :
    (∃ e, parse_post path text = .error e) ∧
    ∀ pre post : List Char, hasColonL pre = false →
      splitKV ⟨pre ++ ':' :: post⟩ = some (pyStrip ⟨pre⟩, pyStrip ⟨post⟩) := by
  constructor
  · rcases parseMeta_spec (metaLines text) with ⟨hok, hany⟩ | ⟨⟨e, herr⟩, hany⟩
    · rw [hany] at hbad
      exact absurd hbad (by simp)
    · refine ⟨e, ?eq⟩
      simp only [parse_post]
      rw [if_neg h3]
      simp only [metaLines] at herr
      rw [herr]
  · intro pre post hpre
    have hs : splitOnce ':' (pre ++ ':' :: post) = some (pre, post) :=
      splitOnce_append pre post hpre
    simp [splitKV, hs]

/-- Witness for C9: a concrete text with the colon-free line `nocolon`
makes the parse raise, and the key/value rule holds. -/
theorem meta_line_rules_witness :
    (¬ (pySplit "---" c9Text).length < 3) ∧ (metaLines c9Text).any badLine = true ∧
    ((∃ e, parse_post "posts/t.html" c9Text = .error e) ∧
      ∀ pre post : List Char, hasColonL pre = false →
        splitKV ⟨pre ++ ':' :: post⟩ = some (pyStrip ⟨pre⟩, pyStrip ⟨post⟩)) :=
  ⟨by decide, by decide, meta_line_rules "posts/t.html" c9Text (by decide) (by decide)⟩

/-! ## C10: present-but-empty required fields -/

/-- C10: a `title` or `date` key whose value is empty makes `parse_post`
fail with the very error used for an absent key — Python's truthiness
check `not title or not date_str` does not distinguish the two. -/
theorem empty_required_field (path text : String) (m : List (String × String))
    (h3 : ¬ (pySplit "---" text).length < 3)
    (hm : parseMeta (metaLines text) = .ok m)
    (he : metaGet m "title" = some "" ∨ metaGet m "date" = some "") :
    parse_post path text = .error ("Post " ++ path ++ " missing title or date") := by
  simp only [parse_post]
  rw [if_neg h3]
  simp only [metaLines] at hm
  rw [hm]
  rcases he with he | he <;> simp [he, falsy]

/-- Witness for C10: a concrete text with `title:` bound to the empty
string fails with the missing-title-or-date error. -/
theorem empty_required_field_witness :
    parseMeta (metaLines c10Text) = .ok [("title", ""), ("date", "2024-03-10")] ∧
    parse_post "posts/t.html" c10Text = .error "Post posts/t.html missing title or date" :=
  ⟨rfl, empty_required_field "posts/t.html" c10Text [("title", ""), ("date", "2024-03-10")]
    (by decide) rfl (.inl rfl)⟩

/-! ## C6: navigation at the newest post -/

/-- C6 counterexample: on the three-post list, index 0 does not yield a
Next link to P1 — the post at index 1 is older and the source renders it
as a Previous link. -/
theorem nav_at_zero_counterexample :
    build_prev_next_nav posts3 0 ≠ nextLinkHtml fixP1 := by decide

/-- C6 as amended: at index 0 the navigation consists of exactly one
Previous Post link to P1 and no Next link. -/
theorem nav_at_zero_amended : build_prev_next_nav posts3 0 = prevLinkHtml fixP1 := by decide

/-! ## C5: the navigation in general -/

/-- C5: for every valid index of the newest-first list, the navigation
shows a Previous link to the post at `index + 1` exactly when that
position exists, a Next link to the post at `index - 1` exactly when the
index is at least 1, joins the two with the visible separator when both
are present, and is empty when neither is. -/
theorem nav_links_iff (posts : List Post) (index : Nat) (h : index < posts.length) :
    build_prev_next_nav posts index = navClaimed posts index := by
  simp only [build_prev_next_nav, navClaimed]
  by_cases hp : index + 1 < posts.length
  · have hp2 : index < posts.length - 1 := by omega
    rw [if_pos hp2, if_pos hp, List.getElem?_eq_getElem hp]
    by_cases hn : index > 0
    · have hn2 : (1:Nat) ≤ index := hn
      have hn3 : index - 1 < posts.length := by omega
      rw [if_pos hn, if_pos hn2, List.getElem?_eq_getElem hn3]
      simp [bne, prevLinkHtml_ne_empty, nextLinkHtml_ne_empty]
    · have hn2 : ¬ ((1:Nat) ≤ index) := by omega
      rw [if_neg hn, if_neg hn2]
      simp [bne, prevLinkHtml_ne_empty]
  · have hp2 : ¬ (index < posts.length - 1) := by omega
    rw [if_neg hp2, if_neg hp]
    by_cases hn : index > 0
    · have hn2 : (1:Nat) ≤ index := hn
      have hn3 : index - 1 < posts.length := by omega
      rw [if_pos hn, if_pos hn2, List.getElem?_eq_getElem hn3]
      simp [bne, nextLinkHtml_ne_empty]
    · have hn2 : ¬ ((1:Nat) ≤ index) := by omega
      rw [if_neg hn, if_neg hn2]
      simp

/-- Witness for C5: the middle index of the three-post list, where both
links are present. -/
theorem nav_links_iff_witness :
    1 < posts3.length ∧ build_prev_next_nav posts3 1 = navClaimed posts3 1 :=
  ⟨by decide, nav_links_iff posts3 1 (by decide)⟩

/-! ## Stable-sort lemmas -/

/-- Everything in an insertion is the inserted element or an original. -/
theorem mem_insertStable (r : Post → Post → Bool) (a : Post) (l : List Post) :
    ∀ x, x ∈ insertStable r a l → x = a ∨ x ∈ l := by
  induction l with
  | nil =>
    intro x hx
    simpa [insertStable] using hx
  | cons b bs ih =>
    intro x hx
    simp only [insertStable] at hx
    by_cases hr : r a b = true
    · rw [if_pos hr] at hx
      rcases List.mem_cons.mp hx with h1 | h1
      · exact .inl h1
      · exact .inr h1
    · rw [if_neg hr] at hx
      rcases List.mem_cons.mp hx with h1 | h1
      · exact .inr (by simp [h1])
      · rcases ih x h1 with h2 | h2
        · exact .inl h2
        · exact .inr (by simp [h2])

/-- Inserting into a list whose date keys descend keeps them descending. -/
theorem pairwise_insertStable (a : Post) (l : List Post)
    (h : l.Pairwise (fun x y => y.date.key ≤ x.date.key)) :
    (insertStable dateDescBefore a l).Pairwise (fun x y => y.date.key ≤ x.date.key) := by
  induction l with
  | nil => simp [insertStable]
  | cons b bs ih =>
    rw [List.pairwise_cons] at h
    obtain ⟨hb, hbs⟩ := h
    simp only [insertStable]
    by_cases hr : dateDescBefore a b = true
    · rw [if_pos hr]
      have hba : b.date.key ≤ a.date.key := by simpa [dateDescBefore] using hr
      rw [List.pairwise_cons]
      constructor
      · intro x hx
        rcases List.mem_cons.mp hx with h1 | h1
        · subst h1; omega
        · have h2 := hb x h1
          omega
      · rw [List.pairwise_cons]
        exact ⟨hb, hbs⟩
    · rw [if_neg hr]
      have hab : a.date.key ≤ b.date.key := by
        simp only [dateDescBefore, decide_eq_true_eq] at hr
        omega
      rw [List.pairwise_cons]
      constructor
      · intro x hx
        rcases mem_insertStable dateDescBefore a bs x hx with h2 | h2
        · subst h2; omega
        · exact hb x h2
      · exact ih hbs

/-- Inserting an element preserves the key-class sublists: the elements
the insertion passes over all have strictly greater keys, so within one
key class the inserted element lands first among none and the originals
keep their order.  This is the stability of the sort, phrased on
filters. -/
theorem filter_insertStable (a : Post) (l : List Post) (k : Nat) :
    (insertStable dateDescBefore a l).filter (fun p => p.date.key == k) =
      if a.date.key == k then a :: l.filter (fun p => p.date.key == k)
      else l.filter (fun p => p.date.key == k) := by
  induction l with
  | nil =>
    by_cases hpa : (a.date.key == k) = true
    · simp [insertStable, List.filter_cons, hpa]
    · simp only [Bool.not_eq_true] at hpa
      simp [insertStable, List.filter_cons, hpa]
  | cons b bs ih =>
    simp only [insertStable]
    by_cases hr : dateDescBefore a b = true
    · rw [if_pos hr]
      by_cases hpa : (a.date.key == k) = true
      · simp [List.filter_cons, hpa]
      · simp only [Bool.not_eq_true] at hpa
        simp [List.filter_cons, hpa]
    · rw [if_neg hr]
      have hab : a.date.key < b.date.key := by
        simp only [dateDescBefore, decide_eq_true_eq] at hr
        omega
      by_cases hpa : (a.date.key == k) = true
      · have hk : a.date.key = k := by simpa using hpa
        have hpb : (b.date.key == k) = false := by
          simp only [beq_eq_false_iff_ne]
          omega
        simp [List.filter_cons, hpb, ih, hpa]
      · simp only [Bool.not_eq_true] at hpa
        simp [List.filter_cons, ih, hpa]

/-- The stable date sort leaves the list pairwise descending by key. -/
theorem sortStable_pairwise (l : List Post) :
    (sortStable dateDescBefore l).Pairwise (fun x y => y.date.key ≤ x.date.key) := by
  induction l with
  | nil => simp [sortStable]
  | cons a as ih => exact pairwise_insertStable a _ ih

/-- The stable date sort does not reorder a key class. -/
theorem sortStable_filter_key (l : List Post) (k : Nat) :
    (sortStable dateDescBefore l).filter (fun p => p.date.key == k) =
      l.filter (fun p => p.date.key == k) := by
  induction l with
  | nil => rfl
  | cons a as ih =>
    simp only [sortStable, filter_insertStable, ih, List.filter_cons]

/-- The stable date sort does not reorder the posts of any fixed date
(equal dates have equal keys). -/
theorem sortStable_filter_date (l : List Post) (D : ParsedDate) :
    (sortStable dateDescBefore l).filter (fun p => p.date == D) =
      l.filter (fun p => p.date == D) := by
  have hsub : ∀ x : List Post,
      x.filter (fun p => p.date == D) =
        (x.filter (fun p => p.date.key == D.key)).filter (fun p => p.date == D) := by
    intro x
    rw [List.filter_filter]
    apply List.filter_congr
    intro p _
    cases hdp : p.date == D with
    | true =>
      have h2 : p.date = D := by simpa using hdp
      simp [h2]
    | false => simp [hdp]
  rw [hsub (sortStable dateDescBefore l), hsub l, sortStable_filter_key]

/-! ## C1: the post repository -/

/-- C1: whenever the parse of the filename-sorted directory succeeds,
`load_posts` returns its stable date sort: the result is pairwise sorted
by date key descending, and for every date the posts carrying it appear
in exactly their sorted-filename order. -/
theorem load_posts_sorted_stable (files : List (String × String)) (parsed : List Post)
    (h : parsedInFileOrder files = .ok parsed) :
    load_posts files = .ok (sortStable dateDescBefore parsed) ∧
    (sortStable dateDescBefore parsed).Pairwise (fun a b => b.date.key ≤ a.date.key) ∧
    ∀ D : ParsedDate,
      (sortStable dateDescBefore parsed).filter (fun p => p.date == D) =
        parsed.filter (fun p => p.date == D) := by
  refine ⟨?load, sortStable_pairwise parsed, fun D => sortStable_filter_date parsed D⟩
  simp only [parsedInFileOrder] at h
  simp only [load_posts]
  rw [h]

/-- Witness for C1: a concrete directory with two equal-date posts listed
out of filename order plus a non-`.html` file. -/
theorem load_posts_sorted_stable_witness :
    parsedInFileOrder filesW = .ok parsedW ∧
    (load_posts filesW = .ok (sortStable dateDescBefore parsedW) ∧
      (sortStable dateDescBefore parsedW).Pairwise (fun a b => b.date.key ≤ a.date.key) ∧
      ∀ D : ParsedDate,
        (sortStable dateDescBefore parsedW).filter (fun p => p.date == D) =
          parsedW.filter (fun p => p.date == D)) :=
  ⟨rfl, load_posts_sorted_stable filesW parsedW rfl⟩

/-! ## C7: the feed document -/

/-- C7: with no posts `build_rss` produces nothing (so no feed file is
written); with posts it produces the document whose `lastBuildDate` is
the formatted date of the first (newest) post and whose item block holds
exactly one item per post. -/
theorem build_rss_spec :
    build_rss [] = none ∧
    ∀ (p0 : Post) (rest : List Post),
      build_rss (p0 :: rest) =
        some (pyStrip (rssDocWith (formatRfc822 p0.date) ((p0 :: rest).map rssItem))) ∧
      ((p0 :: rest).map rssItem).length = (p0 :: rest).length :=
  ⟨rfl, fun p0 rest => ⟨rfl, by simp⟩⟩

end BlogGen
